import Mathlib

/-!
Shallow embedding of `medusa/helpers/externals.py`.

The module being embedded reconciles external ids of a show across metadata
providers ("indexers") and the Trakt tracking service:

* `get_trakt_externals` — small Trakt api wrapper returning mapped ids;
* `get_externals` — aggregate external ids from all other indexers and Trakt;
* `check_existing_shows` — raise `IndexerShowAlreadyInLibrary` when the show
  is already present in `app.showList`;
* `save_externals_to_db` / `load_externals_from_db` — persistence of the
  id mappings in the `indexer_mapping` join table.

Modelling choices:

* Python values used as external ids are modelled by `PyVal` (int, str, None),
  with Python truthiness `PyVal.truthy`.
* Python dicts are insertion-ordered association lists with `alget`
  (`d.get(k)`), `alset` (`d[k] = v`) and `alupdate` (`d.update(other)`).
* The external collaborators are oracles: the per-indexer
  `get_id_by_external` call is a function `IndexerQuery` returning an
  `IndexerOutcome` (unavailable / no such attribute / indexer error /
  a dict of ids), and the Trakt `sync.search_by_id` call is a `TraktSearch`
  returning a `TraktOutcome` (exception / no usable result / found ids).
  Exceptions caught by the Python code appear as outcome constructors.
* `indexerConfig` (from `medusa.indexers.config`, not part of this fragment)
  is a parameter `IndexerCfg`: the list of (indexer id, `mapped_to` name).
* `mappings` and `reverse_mappings` (fixed tables imported from
  `medusa.indexers.utils`, also not part of this fragment) are parameters of
  the persistence functions.
* The sqlite `indexer_mapping` table is an explicit list of `MappingRow`;
  `SELECT ... WHERE` is a filter preserving row order, and inserted rows are
  appended at the end.
-/

/-- A Python value usable as an external id: an int, a str, or `None`. -/
inductive PyVal where
  | pyInt : Int → PyVal
  | pyStr : String → PyVal
  | pyNone : PyVal
deriving DecidableEq

/-- Python truthiness of a `PyVal`: `0`, `""` and `None` are falsy. -/
def PyVal.truthy : PyVal → Bool
  | .pyInt n => decide (n ≠ 0)
  | .pyStr s => decide (s ≠ "")
  | .pyNone => false

/-- Dict lookup `d.get(k)`: the binding of the first matching key. -/
def alget {κ α : Type} [DecidableEq κ] : List (κ × α) → κ → Option α
  | [], _ => none
  | p :: rest, k => if p.1 = k then some p.2 else alget rest k

/-- Dict assignment `d[k] = v`: update the existing binding in place,
otherwise append the new binding (Python insertion order). -/
def alset {κ α : Type} [DecidableEq κ] : List (κ × α) → κ → α → List (κ × α)
  | [], k, v => [(k, v)]
  | p :: rest, k, v => if p.1 = k then (k, v) :: rest else p :: alset rest k v

/-- `d.update(other)`: assign every binding of `other` into `d`, in order. -/
def alupdate {κ α : Type} [DecidableEq κ] (d other : List (κ × α)) : List (κ × α) :=
  other.foldl (fun acc p => alset acc p.1 p.2) d

/-- The key list of a dict, in insertion order (`list(d)`). -/
def alkeys {κ α : Type} (d : List (κ × α)) : List κ :=
  d.map Prod.fst

/-- A Python dict from external-id names to id values. -/
abbrev Dict := List (String × PyVal)

/-- Truthiness of `d.get(k)`: an absent key gives `None`, which is falsy. -/
def truthyOpt : Option PyVal → Bool
  | none => false
  | some v => v.truthy

/-- Outcome of one `sync.search_by_id` call, as observed by the code:
a `TraktException`/`RequestException`, a falsy/unusable result, or a found
`result[0].ids.get('ids')` dict. -/
inductive TraktOutcome where
  | exn : TraktOutcome
  | noResult : TraktOutcome
  | found : List (String × PyVal) → TraktOutcome

/-- The Trakt search collaborator: takes the id value and the id type
(in the order of `sync.search_by_id(id, id_type)`). -/
abbrev TraktSearch := PyVal → String → TraktOutcome

/-- The `trakt_mapping` dict of `get_trakt_externals`. -/
def trakt_mapping : List (String × String) :=
  [("tvdb_id", "tvdb"), ("imdb_id", "imdb"), ("tmdb_id", "tmdb"), ("trakt_id", "trakt")]

/-- `trakt_mapping_rev = {v: k for k, v in viewitems(trakt_mapping)}`. -/
def trakt_mapping_rev : List (String × String) :=
  trakt_mapping.map (fun p => (p.2, p.1))

/-- The dict comprehension building the returned ids:
`{trakt_mapping_rev[k]: v for k, v in result[0].ids.get('ids').items()
  if v and trakt_mapping_rev.get(k)}`. -/
def traktIds (ids : List (String × PyVal)) : Dict :=
  ids.foldl (fun acc p =>
    if p.2.truthy then
      match alget trakt_mapping_rev p.1 with
      | some name => alset acc name p.2
      | none => acc
    else acc) []

/-- The `for external_key in externals` loop of `get_trakt_externals`,
over the key list of the externals dict. -/
def traktGo (search : TraktSearch) (externals : Dict) : List String → Dict
  | [] => []
  | k :: rest =>
    match alget trakt_mapping k with
    | none => traktGo search externals rest
    | some idType =>
      match alget externals k with
      | none => traktGo search externals rest
      | some v =>
        if v.truthy then
          match search v idType with
          | .exn => []
          | .noResult => traktGo search externals rest
          | .found ids => traktIds ids
        else traktGo search externals rest

/-- `get_trakt_externals(externals)`: request Trakt externals using each
usable external id in turn. -/
def get_trakt_externals (search : TraktSearch) (externals : Dict) : Dict :=
  traktGo search externals (alkeys externals)

/-- Outcome of contacting one other indexer, as observed by `get_externals`:
construction raised `IndexerUnavailable`; the api object has no
`get_id_by_external`; the call raised `IndexerException`/`RequestException`;
or the call returned a dict of ids. -/
inductive IndexerOutcome where
  | unavailable : IndexerOutcome
  | noExternalApi : IndexerOutcome
  | indexerError : IndexerOutcome
  | ok : Dict → IndexerOutcome

/-- The per-indexer collaborator: indexer id and the externals passed as
keyword arguments to `get_id_by_external`. -/
abbrev IndexerQuery := Nat → Dict → IndexerOutcome

/-- `indexerConfig` modelled as the list of (indexer id, `mapped_to` name),
in dict iteration order. -/
abbrev IndexerCfg := List (Nat × String)

/-- `other_indexers = [m for m in mappings if m != indexer]` where the
comprehension runs over the keys of `indexerConfig`. -/
def otherIndexers (cfg : IndexerCfg) (indexer : Nat) : List Nat :=
  (cfg.map Prod.fst).filter (fun i => i != indexer)

/-- The `for other_indexer in other_indexers` loop of `get_externals`:
on an `ok` outcome `new_show_externals.update(...)`, on any caught
exception or a missing `get_id_by_external` the dict is left unchanged. -/
def get_externals_loop (query : IndexerQuery) : List Nat → Dict → Dict
  | [], d => d
  | oi :: rest, d =>
    match query oi d with
    | .ok ids => get_externals_loop query rest (alupdate d ids)
    | _ => get_externals_loop query rest d

/-- `get_externals(indexer=indexer, indexed_show=...)` with
`new_show_externals = ext0`: query all other indexers, then, when
`app.USE_TRAKT` is set, update with the Trakt externals. -/
def get_externals (cfg : IndexerCfg) (useTrakt : Bool) (query : IndexerQuery)
    (search : TraktSearch) (indexer : Nat) (ext0 : Dict) : Dict :=
  let e := get_externals_loop query (otherIndexers cfg indexer) ext0
  if useTrakt then alupdate e (get_trakt_externals search e) else e

/-- One observable external call made by `get_externals`: a
`get_id_by_external` attempt against an indexer, or the Trakt consultation;
each records the externals dict passed to the collaborator. -/
inductive QueryEvent where
  | indexerQuery : Nat → Dict → QueryEvent
  | traktQuery : Dict → QueryEvent
deriving DecidableEq

/-- The indexer contacted by an event, if it is an indexer query. -/
def QueryEvent.queried : QueryEvent → Option Nat
  | .indexerQuery i _ => some i
  | .traktQuery _ => none

/-- Whether an event is the Trakt consultation. -/
def QueryEvent.isTraktCall : QueryEvent → Bool
  | .indexerQuery _ _ => false
  | .traktQuery _ => true

/-- `get_externals_loop` instrumented with the trace of indexer queries. -/
def get_externals_loop_tr (query : IndexerQuery) :
    List Nat → Dict → List QueryEvent × Dict
  | [], d => ([], d)
  | oi :: rest, d =>
    let d2 := match query oi d with
      | .ok ids => alupdate d ids
      | _ => d
    let r := get_externals_loop_tr query rest d2
    (QueryEvent.indexerQuery oi d :: r.1, r.2)

/-- `get_externals` instrumented with the trace of external calls. -/
def get_externals_tr (cfg : IndexerCfg) (useTrakt : Bool) (query : IndexerQuery)
    (search : TraktSearch) (indexer : Nat) (ext0 : Dict) :
    List QueryEvent × Dict :=
  let r := get_externals_loop_tr query (otherIndexers cfg indexer) ext0
  if useTrakt then
    (r.1 ++ [QueryEvent.traktQuery r.2], alupdate r.2 (get_trakt_externals search r.2))
  else r

/-- A `Series` object as seen by `get_externals(show=...)`: its indexer and
its `externals` dict. -/
structure Series where
  indexer : Nat
  externals : Dict
deriving DecidableEq

/-- The indexer loop of `get_externals` in the `show=...` case:
`new_show_externals` aliases `show.externals`, so every
`new_show_externals.update(...)` also mutates the show; the show is the
threaded state. -/
def get_externals_loop_st (query : IndexerQuery) : List Nat → Series → Series
  | [], s => s
  | oi :: rest, s =>
    match query oi s.externals with
    | .ok ids =>
      get_externals_loop_st query rest { s with externals := alupdate s.externals ids }
    | _ => get_externals_loop_st query rest s

/-- `get_externals(show=show)`: the pair of the returned dict and the show
after the call (its `externals` mutated through the alias). -/
def get_externals_show (cfg : IndexerCfg) (useTrakt : Bool) (query : IndexerQuery)
    (search : TraktSearch) (s : Series) : Dict × Series :=
  let s1 := get_externals_loop_st query (otherIndexers cfg s.indexer) s
  let s2 := if useTrakt then
      { s1 with externals := alupdate s1.externals (get_trakt_externals search s1.externals) }
    else s1
  (s2.externals, s2)

/-- The `indexed_show` argument of `check_existing_shows`: its
`indexed_show['id']` and its `externals` attribute. -/
structure IndexedShow where
  id : PyVal
  externals : Dict
deriving DecidableEq

/-- A show of `app.showList`, restricted to the fields the code reads. -/
structure LibShow where
  indexer : Nat
  name : String
  externals : Dict
deriving DecidableEq

/-- Result of `check_existing_shows`: returned normally, raised
`IndexerShowAlreadyInLibrary`, or raised some other Python error
(`KeyError` on `mappings[indexer]`, or the guard `Exception` of
`get_externals` when `indexer` is falsy). -/
inductive CheckResult where
  | passed : CheckResult
  | raised : CheckResult
  | pyError : CheckResult
deriving DecidableEq

/-- The first conflict test of the `check_existing_shows` loop body:
`show.externals.get(mappings[indexer]) and
 indexed_show['id'] == show.externals.get(mappings[indexer])`. -/
def ownIdMatch (m : String) (ishowId : PyVal) (s : LibShow) : Bool :=
  truthyOpt (alget s.externals m) && decide (some ishowId = alget s.externals m)

/-- The inner `for new_show_external_key in list(new_show_externals)` loop:
library shows whose indexer is not among `other_indexers` are skipped, keys
with a falsy value on either side are skipped, and a conflict needs
`new_show_externals.get(key) == show.externals.get(key)`. -/
def externalsMatch (others : List Nat) (newExt : Dict) (s : LibShow) : Bool :=
  (alkeys newExt).any (fun k =>
    others.contains s.indexer &&
    truthyOpt (alget newExt k) && truthyOpt (alget s.externals k) &&
    decide (alget newExt k = alget s.externals k))

/-- The `for show in app.showList` loop of `check_existing_shows`.
`mappings[indexer]` is read inside the loop body; a missing key is an
uncaught `KeyError`. -/
def checkLoop (cfg : IndexerCfg) (others : List Nat) (newExt : Dict)
    (ishowId : PyVal) (indexer : Nat) : List LibShow → CheckResult
  | [] => .passed
  | s :: rest =>
    match alget cfg indexer with
    | none => .pyError
    | some m =>
      if ownIdMatch m ishowId s then .raised
      else if externalsMatch others newExt s then .raised
      else checkLoop cfg others newExt ishowId indexer rest

/-- `check_existing_shows(indexed_show, indexer)`: aggregate the externals
through `get_externals` and scan `app.showList`. A falsy `indexer` (0) makes
`get_externals` raise its guard `Exception`. -/
def check_existing_shows (cfg : IndexerCfg) (useTrakt : Bool) (query : IndexerQuery)
    (search : TraktSearch) (showList : List LibShow) (ishow : IndexedShow)
    (indexer : Nat) : CheckResult :=
  if indexer = 0 then .pyError
  else
    checkLoop cfg (otherIndexers cfg indexer)
      (get_externals cfg useTrakt query search indexer ishow.externals)
      ishow.id indexer showList

/-- One row of the `indexer_mapping` table, in the column order of the
`INSERT` statement: `(indexer_id, indexer, mindexer_id, mindexer)`. -/
structure MappingRow where
  indexer_id : PyVal
  indexer : Nat
  mindexer_id : PyVal
  mindexer : Nat
deriving DecidableEq

/-- The row built by `save_externals_to_db` for one externals entry `p`,
when `p.1 in reverse_mappings and externals[p.1] and
reverse_mappings[p.1] != indexer`; `rmap` is the `reverse_mappings` table
(from `medusa.indexers.utils`, not part of this fragment). -/
def mkMappingRow (rmap : List (String × Nat)) (indexer : Nat) (series_id : PyVal)
    (p : String × PyVal) : Option MappingRow :=
  match alget rmap p.1 with
  | some m =>
    if p.2.truthy && decide (m ≠ indexer) then
      some ⟨series_id, indexer, p.2, m⟩
    else none
  | none => none

/-- `save_externals_to_db(indexer, series_id, externals)`: append the rows
of the qualifying externals entries to the table. -/
def save_externals_to_db (rmap : List (String × Nat)) (db : List MappingRow)
    (indexer : Nat) (series_id : PyVal) (externals : Dict) : List MappingRow :=
  db ++ externals.filterMap (mkMappingRow rmap indexer series_id)

/-- The `WHERE (indexer = ? AND indexer_id = ?) OR
(mindexer = ? AND mindexer_id = ?)` clause of `load_externals_from_db`. -/
def rowMatches (indexer : Nat) (indexer_id : PyVal) (r : MappingRow) : Bool :=
  (decide (r.indexer = indexer) && decide (r.indexer_id = indexer_id)) ||
  (decide (r.mindexer = indexer) && decide (r.mindexer_id = indexer_id))

/-- The binding one result row contributes: when `result['indexer'] ==
indexer` the `mindexer` side is written, otherwise the `indexer` side;
`none` models the caught `KeyError` when the id is absent from `mappings`
(the row is skipped). -/
def rowWrite (mappings : List (Nat × String)) (indexer : Nat) (r : MappingRow) :
    Option (String × PyVal) :=
  if r.indexer = indexer then (alget mappings r.mindexer).map (fun n => (n, r.mindexer_id))
  else (alget mappings r.indexer).map (fun n => (n, r.indexer_id))

/-- The `for result in results` loop of `load_externals_from_db`. -/
def loadRows (mappings : List (Nat × String)) (indexer : Nat) :
    List MappingRow → Dict → Dict
  | [], ext => ext
  | r :: rest, ext =>
    match rowWrite mappings indexer r with
    | some p => loadRows mappings indexer rest (alset ext p.1 p.2)
    | none => loadRows mappings indexer rest ext

/-- `load_externals_from_db(indexer, indexer_id)` over an explicit table;
`mappings` is the id-to-name table from `medusa.indexers.utils` (not part of
this fragment). -/
def load_externals_from_db (mappings : List (Nat × String)) (db : List MappingRow)
    (indexer : Nat) (indexer_id : PyVal) : Dict :=
  loadRows mappings indexer (db.filter (rowMatches indexer indexer_id)) []

/-- Spec-side restatement for claim C8: the eligible searches, in key order —
one `(value, id type)` pair for each externals key that is in
`trakt_mapping` and has a truthy value. -/
def traktEligible (externals : Dict) (ks : List String) : List (String × PyVal) :=
  ks.filterMap (fun k =>
    match alget trakt_mapping k with
    | none => none
    | some t =>
      match alget externals k with
      | none => none
      | some v => if v.truthy then some (t, v) else none)

/-- Spec-side restatement for claim C8: walk the eligible searches; the
first exception gives `{}`, the first found result gives its mapped ids and
nothing is aggregated across keys, and exhaustion gives `{}`. -/
def traktSpecWalk (search : TraktSearch) : List (String × PyVal) → Dict
  | [] => []
  | (t, v) :: rest =>
    match search v t with
    | .exn => []
    | .noResult => traktSpecWalk search rest
    | .found ids => traktIds ids

/-- A two-indexer `indexerConfig`: tvdb (1) and tvmaze (3). -/
def cfgA : IndexerCfg := [(1, "tvdb_id"), (3, "tvmaze_id")]

/-- An indexer collaborator none of whose api objects has
`get_id_by_external`. -/
def query0 : IndexerQuery := fun _ _ => .noExternalApi

/-- An indexer collaborator where indexer 3 answers with an `imdb_id`
different from the one already known. -/
def queryA : IndexerQuery := fun oi _ =>
  if oi == 3 then .ok [("imdb_id", PyVal.pyStr "tt2")] else .noExternalApi

/-- A Trakt collaborator that never finds anything. -/
def searchZ : TraktSearch := fun _ _ => .noResult

/-- An externals dict already holding an `imdb_id`. -/
def extA : Dict := [("imdb_id", PyVal.pyStr "tt1")]

/-- An indexed show with id 5 and a known `imdb_id`. -/
def ishowA : IndexedShow := ⟨PyVal.pyInt 5, [("imdb_id", PyVal.pyStr "tt1")]⟩

/-- A library show added through indexer 1 — the originating indexer —
sharing the `imdb_id`. -/
def libSame : LibShow := ⟨1, "Show X", [("imdb_id", PyVal.pyStr "tt1")]⟩

/-- A library show added through indexer 3 sharing the `imdb_id`. -/
def libOther : LibShow := ⟨3, "Show Y", [("imdb_id", PyVal.pyStr "tt1")]⟩

/-- A concrete `mappings` table: tvdb (1) and tmdb (4). -/
def mapsW : List (Nat × String) := [(1, "tvdb_id"), (4, "tmdb_id")]

/-- The `reverse_mappings` table matching `mapsW`. -/
def rmapW : List (String × Nat) := [("tvdb_id", 1), ("tmdb_id", 4)]

/-- Externals holding a truthy `tmdb_id`, to be saved under indexer 1. -/
def extW : Dict := [("tmdb_id", PyVal.pyInt 99)]

/-- A degenerate table row whose two sides carry the same indexer (1)
with different ids 7 and 5. -/
def rowSelf : MappingRow := ⟨PyVal.pyInt 7, 1, PyVal.pyInt 5, 1⟩

/-- A proper pair row between indexers 2 and 3. -/
def rowB : MappingRow := ⟨PyVal.pyInt 5, 2, PyVal.pyInt 9, 3⟩

/-- A `mappings` table naming indexers 2 and 3. -/
def mapsB : List (Nat × String) := [(2, "fake_id"), (3, "tvmaze_id")]

/-- Looking up the key just assigned gives the assigned value. -/
theorem alget_alset_self {κ α : Type} [DecidableEq κ] (d : List (κ × α)) (k : κ) (v : α) :
    alget (alset d k v) k = some v := by
  induction d with
  | nil => simp [alset, alget]
  | cons p rest ih =>
    by_cases h : p.1 = k
    · simp [alset, h, alget]
    · simp [alset, h, alget, ih]

/-- Assigning one key leaves the lookup of any other key unchanged. -/
theorem alget_alset_of_ne {κ α : Type} [DecidableEq κ] (d : List (κ × α)) (k k' : κ) (v : α)
    (h : k' ≠ k) : alget (alset d k v) k' = alget d k' := by
  have hkk : ¬ k = k' := fun hh => h hh.symm
  induction d with
  | nil => simp [alset, alget, hkk]
  | cons p rest ih =>
    by_cases hp : p.1 = k
    · subst hp
      simp [alset, alget, hkk]
    · simp only [alset, if_neg hp, alget]
      by_cases hp2 : p.1 = k'
      · simp [hp2]
      · simp [hp2, ih]

/-- Assignment never removes a key. -/
theorem mem_alkeys_alset {κ α : Type} [DecidableEq κ] (d : List (κ × α)) (k : κ) (v : α)
    (a : κ) : a ∈ alkeys d → a ∈ alkeys (alset d k v) := by
  induction d with
  | nil => intro h; simp [alkeys] at h
  | cons p rest ih =>
    intro h
    simp only [alkeys, List.map_cons, List.mem_cons] at h
    by_cases hp : p.1 = k
    · simp only [alset, if_pos hp, alkeys, List.map_cons, List.mem_cons]
      rcases h with h | h
      · exact Or.inl (h.trans hp)
      · exact Or.inr h
    · simp only [alset, if_neg hp, alkeys, List.map_cons, List.mem_cons]
      rcases h with h | h
      · exact Or.inl h
      · exact Or.inr (ih h)

/-- A key of the result of an assignment is the assigned key or a key of
the original dict. -/
theorem mem_alkeys_alset_elim {κ α : Type} [DecidableEq κ] (d : List (κ × α)) (k : κ) (v : α)
    (a : κ) : a ∈ alkeys (alset d k v) → a = k ∨ a ∈ alkeys d := by
  induction d with
  | nil => intro h; simpa [alset, alkeys] using h
  | cons p rest ih =>
    intro h
    by_cases hp : p.1 = k
    · simp only [alset, if_pos hp, alkeys, List.map_cons, List.mem_cons] at h
      rcases h with h | h
      · exact Or.inl h
      · exact Or.inr (by simp [alkeys, h])
    · simp only [alset, if_neg hp, alkeys, List.map_cons, List.mem_cons] at h
      rcases h with h | h
      · exact Or.inr (by simp [alkeys, h])
      · rcases ih h with h2 | h2
        · exact Or.inl h2
        · exact Or.inr (by simp [alkeys] at h2 ⊢; exact Or.inr h2)

/-- `d.update(p :: other)` assigns `p` first. -/
theorem alupdate_cons {κ α : Type} [DecidableEq κ] (d : List (κ × α)) (p : κ × α)
    (other : List (κ × α)) : alupdate d (p :: other) = alupdate (alset d p.1 p.2) other := rfl

/-- `d.update(other)` never removes a key of `d`. -/
theorem mem_alkeys_alupdate {κ α : Type} [DecidableEq κ] (other : List (κ × α)) :
    ∀ (d : List (κ × α)) (a : κ), a ∈ alkeys d → a ∈ alkeys (alupdate d other) := by
  induction other with
  | nil => intro d a h; simpa [alupdate] using h
  | cons p rest ih =>
    intro d a h
    rw [alupdate_cons]
    exact ih (alset d p.1 p.2) a (mem_alkeys_alset d p.1 p.2 a h)

/-- The indexer loop of `get_externals` never removes a key. -/
theorem mem_alkeys_loop (query : IndexerQuery) :
    ∀ (l : List Nat) (d : Dict) (a : String),
      a ∈ alkeys d → a ∈ alkeys (get_externals_loop query l d) := by
  intro l
  induction l with
  | nil => intro d a h; simpa [get_externals_loop] using h
  | cons oi rest ih =>
    intro d a h
    cases hq : query oi d with
    | ok ids =>
      simp only [get_externals_loop, hq]
      exact ih (alupdate d ids) a (mem_alkeys_alupdate ids d a h)
    | unavailable => simp only [get_externals_loop, hq]; exact ih d a h
    | noExternalApi => simp only [get_externals_loop, hq]; exact ih d a h
    | indexerError => simp only [get_externals_loop, hq]; exact ih d a h

/-- Claim C2 (amended): `get_externals` never drops a key — every key of
the input externals is still a key of the returned dict; but the values of
existing keys are not preserved: `dict.update` overwrites them (see the
counterexample). -/
theorem claim_C2_amended : ∀ (cfg : IndexerCfg) (useTrakt : Bool) (query : IndexerQuery)
    (search : TraktSearch) (indexer : Nat) (ext0 : Dict) (k : String),
    k ∈ alkeys ext0 → k ∈ alkeys (get_externals cfg useTrakt query search indexer ext0) := by
  intro cfg useTrakt query search indexer ext0 k h
  unfold get_externals
  cases useTrakt with
  | false =>
    simpa using mem_alkeys_loop query (otherIndexers cfg indexer) ext0 k h
  | true =>
    simp only [if_true]
    exact mem_alkeys_alupdate _ _ k (mem_alkeys_loop query (otherIndexers cfg indexer) ext0 k h)

/-- Claim C2 (witness for the amended theorem): the key `imdb_id` of the
input externals is still present after aggregation. -/
theorem claim_C2_witness : "imdb_id" ∈ alkeys (get_externals cfgA false queryA searchZ 1 extA) :=
  claim_C2_amended cfgA false queryA searchZ 1 extA "imdb_id" (by decide)

/-- Claim C2 (counterexample): `get_externals` does not only fill in missing
ids — with `imdb_id = "tt1"` already present and indexer 3 answering
`imdb_id = "tt2"`, the returned dict holds `"tt2"`, not the original value. -/
theorem claim_C2_counterexample :
    alget extA "imdb_id" = some (PyVal.pyStr "tt1")
    ∧ alget (get_externals cfgA false queryA searchZ 1 extA) "imdb_id" = some (PyVal.pyStr "tt2")
    ∧ PyVal.pyStr "tt2" ≠ PyVal.pyStr "tt1" := by decide

/-- The instrumented indexer loop computes the same dict as the plain one. -/
theorem loop_tr_snd (query : IndexerQuery) :
    ∀ (l : List Nat) (d : Dict),
      (get_externals_loop_tr query l d).2 = get_externals_loop query l d := by
  intro l
  induction l with
  | nil => intro d; rfl
  | cons oi rest ih =>
    intro d
    cases hq : query oi d <;>
      simp [get_externals_loop_tr, get_externals_loop, hq, ih]

/-- The indexer loop emits no Trakt event. -/
theorem loop_tr_no_trakt (query : IndexerQuery) :
    ∀ (l : List Nat) (d : Dict),
      ((get_externals_loop_tr query l d).1).filter QueryEvent.isTraktCall = [] := by
  intro l
  induction l with
  | nil => intro d; rfl
  | cons oi rest ih =>
    intro d
    cases hq : query oi d <;>
      simp [get_externals_loop_tr, hq, ih, List.filter_cons, QueryEvent.isTraktCall]

/-- The indexers contacted by the loop are exactly the loop's list. -/
theorem loop_tr_queried (query : IndexerQuery) :
    ∀ (l : List Nat) (d : Dict),
      ((get_externals_loop_tr query l d).1).filterMap QueryEvent.queried = l := by
  intro l
  induction l with
  | nil => intro d; rfl
  | cons oi rest ih =>
    intro d
    cases hq : query oi d <;>
      simp [get_externals_loop_tr, hq, ih, List.filterMap_cons, QueryEvent.queried]

/-- The n-th event of the indexer loop queries the n-th other indexer and
passes it the externals accumulated over the first n indexers. -/
theorem loop_tr_get (query : IndexerQuery) :
    ∀ (l : List Nat) (d : Dict) (n : Nat),
      ((get_externals_loop_tr query l d).1)[n]? =
        (l[n]?).map (fun oi =>
          QueryEvent.indexerQuery oi (get_externals_loop query (l.take n) d)) := by
  intro l
  induction l with
  | nil => intro d n; simp [get_externals_loop_tr]
  | cons oi rest ih =>
    intro d n
    cases n with
    | zero => simp [get_externals_loop_tr, get_externals_loop]
    | succ n =>
      cases hq : query oi d <;>
        simp [get_externals_loop_tr, get_externals_loop, hq, ih]

/-- Claim C5: `get_externals` attempts to contact exactly the indexers of
`indexerConfig` other than the originating one, in configuration order, and
the n-th contacted indexer is handed the externals accumulated after the
first n other indexers (starting from the input externals). -/
theorem claim_C5 : ∀ (cfg : IndexerCfg) (useTrakt : Bool) (query : IndexerQuery)
    (search : TraktSearch) (indexer : Nat) (ext0 : Dict),
    ((get_externals_tr cfg useTrakt query search indexer ext0).1).filterMap QueryEvent.queried
      = (cfg.map Prod.fst).filter (fun i => i != indexer)
    ∧ ∀ n : Nat,
        ((get_externals_loop_tr query (otherIndexers cfg indexer) ext0).1)[n]? =
          ((otherIndexers cfg indexer)[n]?).map (fun oi =>
            QueryEvent.indexerQuery oi
              (get_externals_loop query ((otherIndexers cfg indexer).take n) ext0)) := by
  intro cfg useTrakt query search indexer ext0
  constructor
  · cases useTrakt with
    | false =>
      simpa [get_externals_tr] using loop_tr_queried query (otherIndexers cfg indexer) ext0
    | true =>
      simp only [get_externals_tr, if_true, List.filterMap_append]
      rw [loop_tr_queried query (otherIndexers cfg indexer) ext0]
      simp [QueryEvent.queried, otherIndexers]
  · intro n
    exact loop_tr_get query (otherIndexers cfg indexer) ext0 n

/-- Claim C6: the Trakt consultation happens after every indexer query, it
happens exactly when `app.USE_TRAKT` is set (receiving the post-loop
externals), the indexer loop itself never consults Trakt, and the returned
dict is the post-loop externals updated with the Trakt result. -/
theorem claim_C6 : ∀ (cfg : IndexerCfg) (useTrakt : Bool) (query : IndexerQuery)
    (search : TraktSearch) (indexer : Nat) (ext0 : Dict),
    (get_externals_tr cfg useTrakt query search indexer ext0).1
      = (get_externals_loop_tr query (otherIndexers cfg indexer) ext0).1
        ++ (if useTrakt then
              [QueryEvent.traktQuery (get_externals_loop query (otherIndexers cfg indexer) ext0)]
            else [])
    ∧ ((get_externals_loop_tr query (otherIndexers cfg indexer) ext0).1).filter
        QueryEvent.isTraktCall = []
    ∧ (get_externals_tr cfg useTrakt query search indexer ext0).2
      = (if useTrakt then
          alupdate (get_externals_loop query (otherIndexers cfg indexer) ext0)
            (get_trakt_externals search (get_externals_loop query (otherIndexers cfg indexer) ext0))
         else get_externals_loop query (otherIndexers cfg indexer) ext0)
    ∧ (get_externals_tr cfg useTrakt query search indexer ext0).2
      = get_externals cfg useTrakt query search indexer ext0 := by
  intro cfg useTrakt query search indexer ext0
  refine ⟨?_, loop_tr_no_trakt query (otherIndexers cfg indexer) ext0, ?_, ?_⟩
  · cases useTrakt <;> simp [get_externals_tr, loop_tr_snd]
  · cases useTrakt <;> simp [get_externals_tr, loop_tr_snd]
  · cases useTrakt <;> simp [get_externals_tr, get_externals, loop_tr_snd]

/-- The aliased loop updates the show's externals exactly as the plain loop
updates the dict. -/
theorem loop_st_externals (query : IndexerQuery) :
    ∀ (l : List Nat) (s : Series),
      (get_externals_loop_st query l s).externals = get_externals_loop query l s.externals := by
  intro l
  induction l with
  | nil => intro s; rfl
  | cons oi rest ih =>
    intro s
    cases hq : query oi s.externals <;>
      simp [get_externals_loop_st, get_externals_loop, hq, ih]

/-- The aliased loop never changes the show's indexer. -/
theorem loop_st_indexer (query : IndexerQuery) :
    ∀ (l : List Nat) (s : Series),
      (get_externals_loop_st query l s).indexer = s.indexer := by
  intro l
  induction l with
  | nil => intro s; rfl
  | cons oi rest ih =>
    intro s
    cases hq : query oi s.externals <;>
      simp [get_externals_loop_st, hq, ih]

/-- Claim C9: when called with a show object, the returned dict is the
show's own (mutated) externals — the returned dict and the post-call
`show.externals` are one and the same, they equal the aggregation result on
the show's indexer and initial externals, and the show's indexer field is
untouched. -/
theorem claim_C9 : ∀ (cfg : IndexerCfg) (useTrakt : Bool) (query : IndexerQuery)
    (search : TraktSearch) (s : Series),
    (get_externals_show cfg useTrakt query search s).1
      = (get_externals_show cfg useTrakt query search s).2.externals
    ∧ (get_externals_show cfg useTrakt query search s).2.externals
      = get_externals cfg useTrakt query search s.indexer s.externals
    ∧ (get_externals_show cfg useTrakt query search s).2.indexer = s.indexer := by
  intro cfg useTrakt query search s
  refine ⟨rfl, ?_, ?_⟩
  · cases useTrakt <;>
      simp [get_externals_show, get_externals, loop_st_externals]
  · cases useTrakt <;>
      simp [get_externals_show, loop_st_indexer]

/-- The library scan raises exactly when some library show trips the own-id
test or the shared-external test (given that the originating indexer has a
`mapped_to` entry). -/
theorem checkLoop_raised_iff (cfg : IndexerCfg) (others : List Nat) (newExt : Dict)
    (ishowId : PyVal) (indexer : Nat) (m : String) (h : alget cfg indexer = some m) :
    ∀ lst : List LibShow,
      (checkLoop cfg others newExt ishowId indexer lst = CheckResult.raised ↔
        ∃ s ∈ lst, ownIdMatch m ishowId s = true ∨ externalsMatch others newExt s = true) := by
  intro lst
  induction lst with
  | nil => simp [checkLoop]
  | cons s rest ih =>
    simp only [checkLoop, h]
    by_cases h1 : ownIdMatch m ishowId s = true
    · rw [if_pos h1]
      exact iff_of_true rfl ⟨s, List.mem_cons_self s rest, Or.inl h1⟩
    · rw [if_neg h1]
      by_cases h2 : externalsMatch others newExt s = true
      · rw [if_pos h2]
        exact iff_of_true rfl ⟨s, List.mem_cons_self s rest, Or.inr h2⟩
      · rw [if_neg h2]
        rw [ih]
        constructor
        · rintro ⟨x, hx, hm⟩
          exact ⟨x, List.mem_cons_of_mem s hx, hm⟩
        · rintro ⟨x, hx, hm⟩
          rcases List.mem_cons.mp hx with rfl | hx
          · rcases hm with hm | hm
            · exact absurd hm h1
            · exact absurd hm h2
          · exact ⟨x, hx, hm⟩

/-- Claim C1 (amended): `check_existing_shows` raises exactly when some
library show either has a truthy external under the originating indexer's
`mapped_to` key equal to the indexed show's own id, or its indexer is one
of the other known indexers and it shares some external key with the
aggregated set with equal truthy values on both sides. Library shows added
through the originating indexer itself are only reached by the own-id test
(see the counterexample). -/
theorem claim_C1_amended : ∀ (cfg : IndexerCfg) (useTrakt : Bool) (query : IndexerQuery)
    (search : TraktSearch) (showList : List LibShow) (ishow : IndexedShow)
    (indexer : Nat) (m : String),
    indexer ≠ 0 →
    alget cfg indexer = some m →
    (check_existing_shows cfg useTrakt query search showList ishow indexer
        = CheckResult.raised ↔
      ∃ s ∈ showList,
        ownIdMatch m ishow.id s = true ∨
        externalsMatch (otherIndexers cfg indexer)
          (get_externals cfg useTrakt query search indexer ishow.externals) s = true) := by
  intro cfg useTrakt query search showList ishow indexer m h0 hm
  unfold check_existing_shows
  rw [if_neg h0]
  exact checkLoop_raised_iff cfg (otherIndexers cfg indexer)
    (get_externals cfg useTrakt query search indexer ishow.externals)
    ishow.id indexer m hm showList

/-- Claim C1 (witness): at a concrete raising configuration — a library
show added through indexer 3 sharing the aggregated `imdb_id` — the
characterization is discharged. -/
theorem claim_C1_witness :
    check_existing_shows cfgA false query0 searchZ [libOther] ishowA 1
        = CheckResult.raised ↔
      ∃ s ∈ [libOther],
        ownIdMatch "tvdb_id" ishowA.id s = true ∨
        externalsMatch (otherIndexers cfgA 1)
          (get_externals cfgA false query0 searchZ 1 ishowA.externals) s = true :=
  claim_C1_amended cfgA false query0 searchZ [libOther] ishowA 1 "tvdb_id"
    (by decide) (by decide)

/-- Claim C1 (counterexample): a library show added through the originating
indexer (1) shares the truthy aggregated `imdb_id`, so by the claim the
check should raise, but it returns normally — the externals test skips
library shows whose indexer is not among the other indexers. -/
theorem claim_C1_counterexample :
    check_existing_shows cfgA false query0 searchZ [libSame] ishowA 1 = CheckResult.passed
    ∧ alget (get_externals cfgA false query0 searchZ 1 ishowA.externals) "imdb_id"
        = some (PyVal.pyStr "tt1")
    ∧ alget libSame.externals "imdb_id" = some (PyVal.pyStr "tt1")
    ∧ (PyVal.pyStr "tt1").truthy = true
    ∧ CheckResult.passed ≠ CheckResult.raised := by decide

/-- Claim C3: whenever `check_existing_shows` raises, some library show has
an id that is exactly equal to an aggregated id — either its external under
the originating indexer's `mapped_to` key equals the indexed show's own id,
or some shared external key has equal truthy values in the aggregated set
and in the show's externals; no other comparison triggers the conflict. -/
theorem claim_C3 : ∀ (cfg : IndexerCfg) (useTrakt : Bool) (query : IndexerQuery)
    (search : TraktSearch) (showList : List LibShow) (ishow : IndexedShow)
    (indexer : Nat) (m : String),
    indexer ≠ 0 →
    alget cfg indexer = some m →
    check_existing_shows cfg useTrakt query search showList ishow indexer
      = CheckResult.raised →
    ∃ s ∈ showList,
      (truthyOpt (alget s.externals m) = true ∧ alget s.externals m = some ishow.id) ∨
      (∃ k, truthyOpt (alget (get_externals cfg useTrakt query search indexer ishow.externals) k) = true
        ∧ truthyOpt (alget s.externals k) = true
        ∧ alget (get_externals cfg useTrakt query search indexer ishow.externals) k
            = alget s.externals k) := by
  intro cfg useTrakt query search showList ishow indexer m h0 hm hr
  unfold check_existing_shows at hr
  rw [if_neg h0] at hr
  obtain ⟨s, hs, hcase⟩ :=
    (checkLoop_raised_iff cfg (otherIndexers cfg indexer)
      (get_externals cfg useTrakt query search indexer ishow.externals)
      ishow.id indexer m hm showList).mp hr
  refine ⟨s, hs, ?_⟩
  rcases hcase with hcase | hcase
  · left
    unfold ownIdMatch at hcase
    rw [Bool.and_eq_true] at hcase
    obtain ⟨ht, heq⟩ := hcase
    exact ⟨ht, (of_decide_eq_true heq).symm⟩
  · right
    unfold externalsMatch at hcase
    rw [List.any_eq_true] at hcase
    obtain ⟨k, hk, hp⟩ := hcase
    rw [Bool.and_eq_true, Bool.and_eq_true, Bool.and_eq_true] at hp
    obtain ⟨⟨⟨hcont, htn⟩, hts⟩, heq⟩ := hp
    exact ⟨k, htn, hts, of_decide_eq_true heq⟩

/-- Claim C3 (witness): the exact-equality witness extracted from the
concrete raising configuration. -/
theorem claim_C3_witness :
    ∃ s ∈ [libOther],
      (truthyOpt (alget s.externals "tvdb_id") = true
        ∧ alget s.externals "tvdb_id" = some ishowA.id) ∨
      (∃ k, truthyOpt (alget (get_externals cfgA false query0 searchZ 1 ishowA.externals) k) = true
        ∧ truthyOpt (alget s.externals k) = true
        ∧ alget (get_externals cfgA false query0 searchZ 1 ishowA.externals) k
            = alget s.externals k) :=
  claim_C3 cfgA false query0 searchZ [libOther] ishowA 1 "tvdb_id"
    (by decide) (by decide) (by decide)

/-- The trakt loop over any key list equals the spec-side walk over the
eligible searches extracted from that key list. -/
theorem traktGo_eq_spec (search : TraktSearch) (externals : Dict) :
    ∀ ks : List String,
      traktGo search externals ks = traktSpecWalk search (traktEligible externals ks) := by
  intro ks
  induction ks with
  | nil => rfl
  | cons k rest ih =>
    cases h1 : alget trakt_mapping k with
    | none => simp [traktGo, traktEligible, List.filterMap_cons, h1, ih]
    | some t =>
      cases h2 : alget externals k with
      | none => simp [traktGo, traktEligible, List.filterMap_cons, h1, h2, ih]
      | some v =>
        by_cases hv : v.truthy = true
        · cases hs : search v t <;>
            simp [traktGo, traktEligible, List.filterMap_cons, h1, h2, hv, hs,
              traktSpecWalk, ih]
        · simp [traktGo, traktEligible, List.filterMap_cons, h1, h2, hv, ih]

/-- Claim C8: `get_trakt_externals` equals the spec-side walk over the
eligible keys (keys in `trakt_mapping` with truthy values, in dict order):
the first exception yields `{}` without propagating, the first found result
yields its mapped ids filtered to truthy values with known reverse
mappings, results are never aggregated across keys, and exhaustion yields
`{}`. -/
theorem claim_C8 : ∀ (search : TraktSearch) (externals : Dict),
    get_trakt_externals search externals
      = traktSpecWalk search (traktEligible externals (alkeys externals)) := by
  intro search externals
  exact traktGo_eq_spec search externals (alkeys externals)

/-- A successful lookup comes from a binding of the list. -/
theorem alget_some_mem {κ α : Type} [DecidableEq κ] :
    ∀ (l : List (κ × α)) (k : κ) (v : α), alget l k = some v → (k, v) ∈ l := by
  intro l
  induction l with
  | nil => intro k v h; cases h
  | cons p rest ih =>
    intro k v h
    rw [alget] at h
    by_cases hp : p.1 = k
    · rw [if_pos hp] at h
      have hv : p.2 = v := Option.some.inj h
      rw [← hp, ← hv]
      exact List.mem_cons_self p rest
    · rw [if_neg hp] at h
      exact List.mem_cons_of_mem p (ih k v h)

/-- Loading a concatenation of row lists processes the first list first. -/
theorem loadRows_append (mappings : List (Nat × String)) (indexer : Nat) :
    ∀ (l1 l2 : List MappingRow) (ext : Dict),
      loadRows mappings indexer (l1 ++ l2) ext
        = loadRows mappings indexer l2 (loadRows mappings indexer l1 ext) := by
  intro l1
  induction l1 with
  | nil => intro l2 ext; rfl
  | cons r rest ih =>
    intro l2 ext
    cases hw : rowWrite mappings indexer r <;>
      simp [loadRows, hw, ih]

/-- Rows none of which writes a given key leave that key's lookup alone. -/
theorem loadRows_skip_key (mappings : List (Nat × String)) (indexer : Nat) (key : String) :
    ∀ (rows : List MappingRow) (ext : Dict),
      (∀ r ∈ rows, ∀ p, rowWrite mappings indexer r = some p → p.1 ≠ key) →
      alget (loadRows mappings indexer rows ext) key = alget ext key := by
  intro rows
  induction rows with
  | nil => intro ext _; rfl
  | cons r rest ih =>
    intro ext hno
    cases hw : rowWrite mappings indexer r with
    | none =>
      simp only [loadRows, hw]
      exact ih ext (fun r' hr' => hno r' (List.mem_cons_of_mem r hr'))
    | some p =>
      simp only [loadRows, hw]
      rw [ih (alset ext p.1 p.2) (fun r' hr' => hno r' (List.mem_cons_of_mem r hr'))]
      exact alget_alset_of_ne ext p.1 key p.2
        (Ne.symm (hno r (List.mem_cons_self r rest) p hw))

/-- Decomposition of a produced insert row: its fields and the conditions
under which it was produced. -/
theorem mkMappingRow_fields (rmap : List (String × Nat)) (indexer : Nat)
    (series_id : PyVal) (p : String × PyVal) (r : MappingRow)
    (h : mkMappingRow rmap indexer series_id p = some r) :
    ∃ m, alget rmap p.1 = some m ∧ p.2.truthy = true ∧ m ≠ indexer ∧
      r = ⟨series_id, indexer, p.2, m⟩ := by
  unfold mkMappingRow at h
  cases hm : alget rmap p.1 with
  | none => simp only [hm] at h; exact Option.noConfusion h
  | some m =>
    simp only [hm] at h
    by_cases hc : (p.2.truthy && decide (m ≠ indexer)) = true
    · rw [if_pos hc] at h
      rw [Bool.and_eq_true] at hc
      exact ⟨m, rfl, hc.1, of_decide_eq_true hc.2, (Option.some.inj h).symm⟩
    · rw [if_neg hc] at h; cases h

/-- Every row produced by `save_externals_to_db` satisfies the `WHERE`
clause of the load query for the same indexer and series id. -/
theorem saved_rows_match (rmap : List (String × Nat)) (indexer : Nat)
    (series_id : PyVal) (externals : Dict) :
    ∀ r ∈ externals.filterMap (mkMappingRow rmap indexer series_id),
      rowMatches indexer series_id r = true := by
  intro r hr
  obtain ⟨p, hp, hmk⟩ := List.mem_filterMap.mp hr
  obtain ⟨m, _, _, _, rfl⟩ := mkMappingRow_fields rmap indexer series_id p r hmk
  simp [rowMatches]

/-- Loading the rows just saved recovers each saved entry under its
original key with its original value, whatever dict the load has
accumulated so far. -/
theorem savedLoad (mappings : List (Nat × String)) (rmap : List (String × Nat))
    (indexer : Nat) (series_id : PyVal)
    (hcoh : ∀ p ∈ rmap, alget mappings p.2 = some p.1) :
    ∀ (externals : Dict) (ext' : Dict) (external : String) (v : PyVal) (m : Nat),
      (alkeys externals).Nodup →
      alget externals external = some v →
      v.truthy = true →
      alget rmap external = some m →
      m ≠ indexer →
      alget (loadRows mappings indexer
        (externals.filterMap (mkMappingRow rmap indexer series_id)) ext') external
        = some v := by
  intro externals
  induction externals with
  | nil => intro ext' external v m _ hget; cases hget
  | cons q rest ih =>
    intro ext' external v m hnodup hget htr hm hmne
    have hnd : q.1 ∉ alkeys rest ∧ (alkeys rest).Nodup := by
      rw [alkeys, List.map_cons, List.nodup_cons] at hnodup
      exact hnodup
    rw [alget] at hget
    by_cases hq : q.1 = external
    · rw [if_pos hq] at hget
      have hv : q.2 = v := Option.some.inj hget
      have hrow : mkMappingRow rmap indexer series_id q
          = some ⟨series_id, indexer, q.2, m⟩ := by
        unfold mkMappingRow
        rw [hq, hm, hv]
        simp [htr, hmne]
      have hmap : alget mappings m = some external :=
        hcoh (external, m) (alget_some_mem rmap external m hm)
      have hw : rowWrite mappings indexer ⟨series_id, indexer, q.2, m⟩
          = some (external, q.2) := by
        simp [rowWrite, hmap]
      rw [List.filterMap_cons, hrow]
      simp only [loadRows, hw]
      rw [loadRows_skip_key]
      · rw [hv]
        exact alget_alset_self ext' external v
      · intro r' hr' p' hw'
        obtain ⟨p0, hp0, hmk0⟩ := List.mem_filterMap.mp hr'
        obtain ⟨m0, hm0, _, _, rfl⟩ := mkMappingRow_fields rmap indexer series_id p0 r' hmk0
        have hmap0 : alget mappings m0 = some p0.1 :=
          hcoh (p0.1, m0) (alget_some_mem rmap p0.1 m0 hm0)
        have hw0 : rowWrite mappings indexer ⟨series_id, indexer, p0.2, m0⟩
            = some (p0.1, p0.2) := by
          simp [rowWrite, hmap0]
        rw [hw0] at hw'
        have hp' : p' = (p0.1, p0.2) := (Option.some.inj hw').symm
        rw [hp']
        intro hcontra
        apply hnd.1
        rw [← hq] at hcontra
        rw [← hcontra]
        exact List.mem_map_of_mem Prod.fst hp0
    · rw [if_neg hq] at hget
      cases hrow : mkMappingRow rmap indexer series_id q with
      | none =>
        rw [List.filterMap_cons, hrow]
        exact ih ext' external v m hnd.2 hget htr hm hmne
      | some row =>
        obtain ⟨mq, hmq, _, _, rfl⟩ := mkMappingRow_fields rmap indexer series_id q row hrow
        have hmapq : alget mappings mq = some q.1 :=
          hcoh (q.1, mq) (alget_some_mem rmap q.1 mq hmq)
        have hwq : rowWrite mappings indexer ⟨series_id, indexer, q.2, mq⟩
            = some (q.1, q.2) := by
          simp [rowWrite, hmapq]
        rw [List.filterMap_cons, hrow]
        simp only [loadRows, hwq]
        exact ih (alset ext' q.1 q.2) external v m hnd.2 hget htr hm hmne

/-- Claim C4: round trip of mapping persistence — after saving, loading for
the same indexer and series id returns every saved entry (key in
`reverse_mappings`, truthy value, provider different from the indexer)
under its original key with its original value, for any prior table
contents. The hypothesis on the tables is satisfied by the real
`reverse_mappings`, which inverts `mappings`. -/
theorem claim_C4 : ∀ (mappings : List (Nat × String)) (rmap : List (String × Nat))
    (db : List MappingRow) (indexer : Nat) (series_id : PyVal) (externals : Dict)
    (external : String) (v : PyVal) (m : Nat),
    (∀ p ∈ rmap, alget mappings p.2 = some p.1) →
    (alkeys externals).Nodup →
    alget externals external = some v →
    v.truthy = true →
    alget rmap external = some m →
    m ≠ indexer →
    alget (load_externals_from_db mappings
        (save_externals_to_db rmap db indexer series_id externals) indexer series_id)
      external = some v := by
  intro mappings rmap db indexer series_id externals external v m hcoh hnodup hget htr hm hmne
  unfold load_externals_from_db save_externals_to_db
  rw [List.filter_append]
  rw [List.filter_eq_self.mpr (saved_rows_match rmap indexer series_id externals)]
  rw [loadRows_append]
  exact savedLoad mappings rmap indexer series_id hcoh externals _ external v m
    hnodup hget htr hm hmne

/-- Claim C4 (witness): saving `tmdb_id = 99` for series 7 of indexer 1
into an empty table and loading it back recovers the entry. -/
theorem claim_C4_witness :
    alget (load_externals_from_db mapsW
        (save_externals_to_db rmapW [] 1 (PyVal.pyInt 7) extW) 1 (PyVal.pyInt 7))
      "tmdb_id" = some (PyVal.pyInt 99) :=
  claim_C4 mapsW rmapW [] 1 (PyVal.pyInt 7) extW "tmdb_id" (PyVal.pyInt 99) 4
    (by decide) (by decide) (by decide) (by decide) (by decide) (by decide)

/-- Claim C7 (amended): for a stored row whose two indexer columns differ,
loading for either side of the row returns the opposite side's id under
the opposite indexer's mapping name (when that indexer is in `mappings`).
For degenerate rows with equal indexer columns matched on the `mindexer`
side, the branch test `result['indexer'] == indexer` picks the `mindexer`
side instead (see the counterexample). -/
theorem claim_C7_amended : ∀ (mappings : List (Nat × String)) (row : MappingRow)
    (qi : Nat) (qid : PyVal) (nameA nameB : String),
    row.indexer ≠ row.mindexer →
    (row.indexer = qi → row.indexer_id = qid →
      alget mappings row.mindexer = some nameB →
      load_externals_from_db mappings [row] qi qid = [(nameB, row.mindexer_id)]) ∧
    (row.mindexer = qi → row.mindexer_id = qid →
      alget mappings row.indexer = some nameA →
      load_externals_from_db mappings [row] qi qid = [(nameA, row.indexer_id)]) := by
  intro mappings row qi qid nameA nameB hdiff
  constructor
  · intro h1 h2 h3
    have hmatch : rowMatches qi qid row = true := by
      simp [rowMatches, h1, h2]
    have hw : rowWrite mappings qi row = some (nameB, row.mindexer_id) := by
      simp [rowWrite, h1, h3]
    unfold load_externals_from_db
    rw [List.filter_cons_of_pos hmatch, List.filter_nil]
    simp [loadRows, hw, alset]
  · intro h1 h2 h3
    have hne : row.indexer ≠ qi := by
      rw [← h1]
      exact hdiff
    have hmatch : rowMatches qi qid row = true := by
      simp [rowMatches, h1, h2]
    have hw : rowWrite mappings qi row = some (nameA, row.indexer_id) := by
      simp [rowWrite, hne, h3]
    unfold load_externals_from_db
    rw [List.filter_cons_of_pos hmatch, List.filter_nil]
    simp [loadRows, hw, alset]

/-- Claim C7 (witness for the amended theorem): the pair row between
indexers 2 and 3, queried from its `indexer` side, loads the opposite
side's id 9 under the opposite indexer's name `tvmaze_id`. -/
theorem claim_C7_witness :
    load_externals_from_db mapsB [rowB] 2 (PyVal.pyInt 5)
      = [("tvmaze_id", PyVal.pyInt 9)] :=
  (claim_C7_amended mapsB rowB 2 (PyVal.pyInt 5) "fake_id" "tvmaze_id"
    (by decide)).1 (by decide) (by decide) (by decide)

/-- Claim C7 (counterexample): the degenerate row (indexer 1, id 7 /
mindexer 1, id 5) is matched only on its `mindexer` side by the query
(1, 5), so the claim demands the opposite side's id 7 — but the load
returns the `mindexer` side's own id 5, because the branch only compares
the row's `indexer` column with the queried indexer. -/
theorem claim_C7_counterexample :
    (rowSelf.indexer = 1 ∧ rowSelf.indexer_id = PyVal.pyInt 7
      ∧ rowSelf.mindexer = 1 ∧ rowSelf.mindexer_id = PyVal.pyInt 5)
    ∧ load_externals_from_db [(1, "tvdb_id")] [rowSelf] 1 (PyVal.pyInt 5)
        = [("tvdb_id", PyVal.pyInt 5)]
    ∧ alget (load_externals_from_db [(1, "tvdb_id")] [rowSelf] 1 (PyVal.pyInt 5))
        "tvdb_id" ≠ some (PyVal.pyInt 7) := by decide

/-- The name a row writes is some value of the `mappings` table. -/
theorem rowWrite_name (mappings : List (Nat × String)) (indexer : Nat)
    (r : MappingRow) (p : String × PyVal)
    (h : rowWrite mappings indexer r = some p) :
    ∃ i, alget mappings i = some p.1 := by
  unfold rowWrite at h
  by_cases hb : r.indexer = indexer
  · rw [if_pos hb] at h
    obtain ⟨n, hn, hp⟩ := Option.map_eq_some'.mp h
    exact ⟨r.mindexer, by rw [hn, ← hp]⟩
  · rw [if_neg hb] at h
    obtain ⟨n, hn, hp⟩ := Option.map_eq_some'.mp h
    exact ⟨r.indexer, by rw [hn, ← hp]⟩

/-- Every key accumulated by the load loop is a known mapping name or was
already a key of the accumulator. -/
theorem loadRows_keys (mappings : List (Nat × String)) (indexer : Nat) :
    ∀ (rows : List MappingRow) (ext : Dict) (key : String),
      key ∈ alkeys (loadRows mappings indexer rows ext) →
      key ∈ alkeys ext ∨ ∃ i, alget mappings i = some key := by
  intro rows
  induction rows with
  | nil => intro ext key h; exact Or.inl h
  | cons r rest ih =>
    intro ext key h
    cases hw : rowWrite mappings indexer r with
    | none =>
      simp only [loadRows, hw] at h
      exact ih ext key h
    | some p =>
      simp only [loadRows, hw] at h
      rcases ih (alset ext p.1 p.2) key h with h2 | h2
      · rcases mem_alkeys_alset_elim ext p.1 p.2 key h2 with rfl | h3
        · exact Or.inr (rowWrite_name mappings indexer r p hw)
        · exact Or.inl h3
      · exact Or.inr h2

/-- Claim C10: `load_externals_from_db` skips rows whose indexer ids are
unknown (the caught `KeyError`), so every key of the returned dict is a
known mapping name. -/
theorem claim_C10 : ∀ (mappings : List (Nat × String)) (db : List MappingRow)
    (indexer : Nat) (indexer_id : PyVal) (key : String),
    key ∈ alkeys (load_externals_from_db mappings db indexer indexer_id) →
    ∃ i, alget mappings i = some key := by
  intro mappings db indexer indexer_id key h
  unfold load_externals_from_db at h
  rcases loadRows_keys mappings indexer (db.filter (rowMatches indexer indexer_id))
      [] key h with h2 | h2
  · simp [alkeys] at h2
  · exact h2

/-- Claim C10 (witness): the one key loaded from the degenerate row is the
known mapping name of indexer 1. -/
theorem claim_C10_witness : ∃ i, alget [(1, "tvdb_id")] i = some "tvdb_id" :=
  claim_C10 [(1, "tvdb_id")] [rowSelf] 1 (PyVal.pyInt 7) "tvdb_id" (by decide)
